import Mathlib

/-!
Shallow embedding of `taichi/analysis/gather_uniquely_accessed_pointers.cpp`.

The pass has three layers:
* `LoopUniqueStmtSearcher` (value-uniqueness propagator): classifies statements
  as loop-invariant (`loop_invariant`) or loop-unique (`loop_unique`, where the
  stored `Int` is `-1` for an opaque `LoopUniqueStmt` tag and `d ≥ 0` for the
  `d`-th loop index), and answers `is_ptr_indices_loop_unique`.
* `UniquelyAccessedSNodeSearcher` (access-uniqueness resolver): folds every
  `GlobalPtrStmt` into a per-SNode verdict map
  (`none` = no entry yet, `some none` = nullptr = not uniquely accessed,
  `some (some p)` = representative access `p`).
* `UniquelyAccessedBitStructGatherer` (sub-field aggregator): per parallel
  offloaded task, folds bit-level SNode verdicts up to the nearest
  non-bit-level ancestor.

Statement and SNode identity (C++ pointer identity) is modelled by numeric
ids.  Fatal `TI_ASSERT` failures and undefined behaviour (null-pointer
dereferences) are modelled by an `Option` result, `none` meaning the
computation aborts.  The two external oracles `definitely_same_address` and
`same_value` are parameters.
-/

/-- Statement identity (C++ `Stmt *`). -/
abbrev StmtId := Nat

/-- Storage-tree node identity (C++ `const SNode *`). -/
abbrev SNodeId := Nat

/-- The loop owning a `LoopIndexStmt` (`stmt->loop`): its identity and whether
it is an `OffloadedStmt` (`stmt->loop->is<OffloadedStmt>()`). -/
structure Loop where
  ident : Nat
  isOffloaded : Bool
deriving DecidableEq

/-- Unary operator kinds (`UnaryOpType`); only `neg` matters to this pass,
the others stand for every remaining unary operator. -/
inductive UnaryOpType where
  | neg
  | sqrt
  | abs
  | bit_not
  | logic_not
deriving DecidableEq

/-- Binary operator kinds (`BinaryOpType`); `add`, `sub`, `bit_xor` matter to
this pass, the others stand for every remaining binary operator. -/
inductive BinaryOpType where
  | add
  | sub
  | bit_xor
  | mul
  | div
  | mod
  | bit_and
  | bit_or
  | max
  | min
deriving DecidableEq

/-- Offloaded task kinds (`OffloadedTaskType`). -/
inductive TaskType where
  | serial
  | range_for
  | struct_for
  | mesh_for
  | listgen
  | gc
deriving DecidableEq

/-- A `GlobalPtrStmt`: an ordered index tuple (`stmt->indices`) and the
candidate SNodes it may address (`stmt->snodes.data`). -/
structure GlobalPtr where
  ident : Nat
  indices : List StmtId
  snodes : List SNodeId
deriving DecidableEq

/-- The statement variants the pass dispatches on; `otherStmt` is the
deliberately-permissive default for every unmodelled statement kind. -/
inductive StmtNode where
  | loopIndex (ident : StmtId) (loop : Loop) (index : Int)
  | loopUniqueSt (ident : StmtId)
  | constSt (ident : StmtId)
  | unaryOp (ident : StmtId) (op : UnaryOpType) (operand : StmtId)
  | binaryOp (ident : StmtId) (op : BinaryOpType) (lhs rhs : StmtId)
  | globalPtr (p : GlobalPtr)
  | otherStmt (ident : StmtId)
deriving DecidableEq

/-- State of `LoopUniqueStmtSearcher`: the set `loop_invariant_` and the map
`loop_unique_` (value `-1` = opaque `LoopUniqueStmt`, `d ≥ 0` = the `d`-th
loop index). -/
structure LUState where
  loop_invariant : StmtId → Bool
  loop_unique : StmtId → Option Int

/-- Record a statement in `loop_invariant_`. -/
def addInv (s : LUState) (i : StmtId) : LUState :=
  { s with loop_invariant := fun k => if k = i then true else s.loop_invariant k }

/-- Record a statement in `loop_unique_`. -/
def setLU (s : LUState) (i : StmtId) (v : Option Int) : LUState :=
  { s with loop_unique := fun k => if k = i then v else s.loop_unique k }

/-- `LoopUniqueStmtSearcher::visit(LoopIndexStmt *)`: tag the statement with
its index position when its owning loop is an `OffloadedStmt`. -/
def visitLoopIndexStmt (s : LUState) (stmt : StmtId) (loop : Loop) (index : Int) : LUState :=
  if loop.isOffloaded = true then setLU s stmt (some index) else s

/-- `LoopUniqueStmtSearcher::visit(LoopUniqueStmt *)`: tag with `-1`. -/
def visitLoopUniqueStmt (s : LUState) (stmt : StmtId) : LUState :=
  setLU s stmt (some (-1))

/-- `LoopUniqueStmtSearcher::visit(ConstStmt *)`: loop-invariant. -/
def visitConstStmt (s : LUState) (stmt : StmtId) : LUState :=
  addInv s stmt

/-- `LoopUniqueStmtSearcher::visit(UnaryOpStmt *)`: invariant operand makes
the result invariant; a loop-unique operand propagates through `neg` only. -/
def visitUnaryOpStmt (s : LUState) (stmt : StmtId) (op : UnaryOpType) (operand : StmtId) :
    LUState :=
  let s1 := if s.loop_invariant operand = true then addInv s stmt else s
  if (s1.loop_unique operand).isSome = true ∧ op = UnaryOpType.neg then
    setLU s1 stmt (s1.loop_unique operand)
  else s1

/-- `LoopUniqueStmtSearcher::visit(BinaryOpStmt *)`: two invariant operands
make the result invariant; (unique, invariant) or (invariant, unique) operand
pairs propagate the unique tag through `add`, `sub`, `bit_xor` only.  The two
propagation branches run in sequence exactly as in the source. -/
def visitBinaryOpStmt (s : LUState) (stmt : StmtId) (op : BinaryOpType) (lhs rhs : StmtId) :
    LUState :=
  let s1 := if s.loop_invariant lhs = true ∧ s.loop_invariant rhs = true then addInv s stmt else s
  let s2 :=
    if (s1.loop_unique lhs).isSome = true ∧ s1.loop_invariant rhs = true ∧
        (op = BinaryOpType.add ∨ op = BinaryOpType.sub ∨ op = BinaryOpType.bit_xor) then
      setLU s1 stmt (s1.loop_unique lhs)
    else s1
  if s2.loop_invariant lhs = true ∧ (s2.loop_unique rhs).isSome = true ∧
      (op = BinaryOpType.add ∨ op = BinaryOpType.sub ∨ op = BinaryOpType.bit_xor) then
    setLU s2 stmt (s2.loop_unique rhs)
  else s2

/-- Dispatch of `LoopUniqueStmtSearcher` over one statement; `GlobalPtrStmt`
and unmodelled statements fall through to the (empty) default visitor. -/
def visitStmtLU (s : LUState) : StmtNode → LUState
  | StmtNode.loopIndex ident loop index => visitLoopIndexStmt s ident loop index
  | StmtNode.loopUniqueSt ident => visitLoopUniqueStmt s ident
  | StmtNode.constSt ident => visitConstStmt s ident
  | StmtNode.unaryOp ident op operand => visitUnaryOpStmt s ident op operand
  | StmtNode.binaryOp ident op lhs rhs => visitBinaryOpStmt s ident op lhs rhs
  | StmtNode.globalPtr _ => s
  | StmtNode.otherStmt _ => s

/-- Run `LoopUniqueStmtSearcher` over a task body (statements in visit
order, a topological order of the expression DAG). -/
def luFold (body : List StmtNode) : LUState :=
  body.foldl visitStmtLU ⟨fun _ => false, fun _ => none⟩

/-- Loop of `is_ptr_indices_loop_unique`: scan the index statements; an
opaque (`-1`) tag returns `true` immediately, dimension tags are collected
into `acc`; at the end the source sorts and counts distinct collected
dimensions (modelled by `List.dedup`) and compares with `n`. -/
def scanIndices (s : LUState) (n : Int) : List StmtId → List Int → Bool
  | [], acc => decide ((acc.dedup.length : Int) = n)
  | i :: rest, acc =>
    match s.loop_unique i with
    | some v => if v = -1 then true else scanIndices s n rest (acc ++ [v])
    | none => scanIndices s n rest acc

/-- `LoopUniqueStmtSearcher::is_ptr_indices_loop_unique`.  The result is
`none` when `TI_ASSERT(num_different_loop_indices != -1)` fails. -/
def is_ptr_indices_loop_unique (s : LUState) (n : Int) (indices : List StmtId) : Option Bool :=
  if n = -1 then none
  else some (scanIndices s n indices [])

/-- The `Dimension(d)` tags of an index tuple, in order (opaque `-1` tags and
untagged statements are dropped). -/
def dimTags (s : LUState) (indices : List StmtId) : List Int :=
  indices.filterMap fun i =>
    match s.loop_unique i with
    | some v => if v = -1 then none else some v
    | none => none

/-- The resolver's map `accessed_pointer_` (and the aggregator's inner map):
`none` = no entry, `some none` = entry `nullptr`, `some (some p)` =
representative access `p`. -/
abbrev AccessMap := SNodeId → Option (Option GlobalPtr)

/-- Point update of an `AccessMap`. -/
def updMap (m : AccessMap) (k : SNodeId) (v : Option (Option GlobalPtr)) : AccessMap :=
  fun i => if i = k then v else m i

/-- One iteration of the loop body of
`UniquelyAccessedSNodeSearcher::visit(GlobalPtrStmt *)` for a single
candidate SNode.  `orac` is the external `definitely_same_address` oracle;
its first argument is the stored entry, which the source passes even when it
is `nullptr`.  The result is `none` when the embedded
`is_ptr_indices_loop_unique` assertion fails. -/
def visitGlobalPtrSN (orac : Option GlobalPtr → GlobalPtr → Bool) (s : LUState) (n : Int)
    (m : AccessMap) (stmt : GlobalPtr) (snode : SNodeId) : Option AccessMap :=
  match m snode with
  | none =>
    match is_ptr_indices_loop_unique s n stmt.indices with
    | none => none
    | some b => some (updMap m snode (some (if b = true then some stmt else none)))
  | some accessed =>
    if orac accessed stmt = true then some m
    else some (updMap m snode (some none))

/-- `UniquelyAccessedSNodeSearcher::visit(GlobalPtrStmt *)`: fold over the
access's candidate SNodes. -/
def visitGlobalPtr (orac : Option GlobalPtr → GlobalPtr → Bool) (s : LUState) (n : Int)
    (m : AccessMap) (stmt : GlobalPtr) : Option AccessMap :=
  stmt.snodes.foldlM (fun m' sn => visitGlobalPtrSN orac s n m' stmt sn) m

/-- The resolver's pass over the `GlobalPtrStmt`s of one task body, in visit
order, starting from the empty map. -/
def resolverRun (orac : Option GlobalPtr → GlobalPtr → Bool) (s : LUState) (n : Int)
    (accesses : List GlobalPtr) : Option AccessMap :=
  accesses.foldlM (visitGlobalPtr orac s n) (fun _ => none)

/-- One `OffloadedStmt`: identity, task kind, the `num_active_indices` of its
`snode` (meaningful for `struct_for`), and its body in visit order. -/
structure OffloadedTask where
  tid : Nat
  task_type : TaskType
  snode_num_active_indices : Int
  body : List StmtNode
deriving DecidableEq

/-- An `IRNode`: either an `OffloadedStmt` or some other node kind. -/
inductive IRNode where
  | offloadedNode (o : OffloadedTask)
  | otherNode (ident : Nat)
deriving DecidableEq

/-- The `num_different_loop_indices` initialization of
`UniquelyAccessedSNodeSearcher::run`: `1` for `range_for`/`mesh_for`, the
snode's `num_active_indices` for `struct_for`, `0` for serial and the rest. -/
def searcherNumIndices (o : OffloadedTask) : Int :=
  if o.task_type = TaskType.range_for ∨ o.task_type = TaskType.mesh_for then 1
  else if o.task_type = TaskType.struct_for then o.snode_num_active_indices
  else 0

/-- The `GlobalPtrStmt`s of a body, in visit order. -/
def ptrsOf (body : List StmtNode) : List GlobalPtr :=
  body.filterMap fun st =>
    match st with
    | StmtNode.globalPtr p => some p
    | _ => none

/-- `UniquelyAccessedSNodeSearcher::run`: asserts the root is an
`OffloadedStmt` (`none` on failure), fixes the dimension count, runs the
propagator over the body, then the resolver. -/
def searcherRun (orac : Option GlobalPtr → GlobalPtr → Bool) (root : IRNode) :
    Option AccessMap :=
  match root with
  | IRNode.otherNode _ => none
  | IRNode.offloadedNode o =>
    resolverRun orac (luFold o.body) (searcherNumIndices o) (ptrsOf o.body)

/-- `irpass::analysis::gather_uniquely_accessed_pointers`. -/
def gather_uniquely_accessed_pointers (orac : Option GlobalPtr → GlobalPtr → Bool)
    (root : IRNode) : Option AccessMap :=
  searcherRun orac root

/-- One storage-tree node's fields used by the aggregator. -/
structure SNodeInfo where
  is_bit_level : Bool
  parent : SNodeId
deriving DecidableEq

/-- The externally-owned storage tree, as a lookup from node id to fields. -/
structure SNodeEnv where
  info : SNodeId → SNodeInfo

/-- Walk `while (snode->is_bit_level) snode = snode->parent;` with explicit
fuel (the walk terminates in the real finite tree; `none` = fuel ran out). -/
def nearestNonBit (env : SNodeEnv) : Nat → SNodeId → Option SNodeId
  | 0, _ => none
  | fuel + 1, sn =>
    if (env.info sn).is_bit_level = true then nearestNonBit env fuel (env.info sn).parent
    else some sn

/-- One iteration of the aggregation loop in
`UniquelyAccessedBitStructGatherer::visit(OffloadedStmt *)`, for one
`(snode, ptr1)` entry of the resolver's result.  `sv` is the external
`same_value` oracle.  The result is `none` when the source crashes: the fuel
of the ancestor walk runs out, the `TI_ASSERT` on index-tuple arities fails,
or — with an existing `nullptr` entry and a non-null `ptr1` — the source
dereferences the null `ptr2` in `TI_ASSERT(ptr1->indices.size() ==
ptr2->indices.size())`. -/
def gatherFoldEntry (env : SNodeEnv) (sv : StmtId → StmtId → Bool) (fuel : Nat)
    (m : AccessMap) (entry : SNodeId × Option GlobalPtr) : Option AccessMap :=
  if (env.info entry.1).is_bit_level = true then
    match nearestNonBit env fuel entry.1 with
    | none => none
    | some snode =>
      match m snode with
      | none => some (updMap m snode (some entry.2))
      | some existing =>
        match entry.2 with
        | none => some (updMap m snode (some none))
        | some p1 =>
          match existing with
          | none => none
          | some p2 =>
            if p1.indices.length = p2.indices.length then
              some (updMap m snode
                (some (if (p1.indices.zip p2.indices).all (fun ab => sv ab.1 ab.2) = true then
                        some p2
                      else none)))
            else none
  else some m

/-- Enumerate the entries of the resolver's result for one task as a list of
`(snode, verdict)` pairs.  The C++ `unordered_map` iteration order is
unspecified; we enumerate the touched SNodes in first-touch order. -/
def gatherEntries (orac : Option GlobalPtr → GlobalPtr → Bool) (o : OffloadedTask) :
    Option (List (SNodeId × Option GlobalPtr)) :=
  (searcherRun orac (IRNode.offloadedNode o)).map fun M =>
    (((ptrsOf o.body).flatMap fun p => p.snodes).dedup).filterMap fun sn =>
      (M sn).map fun v => (sn, v)

/-- Point update of the aggregator's outer result map (keyed by the offloaded
task, i.e. by C++ pointer identity of the `OffloadedStmt`). -/
def updResult (r : OffloadedTask → Option AccessMap) (k : OffloadedTask) (v : Option AccessMap) :
    OffloadedTask → Option AccessMap :=
  fun t => if t = k then v else r t

/-- `UniquelyAccessedBitStructGatherer::visit(OffloadedStmt *)`: only
`range_for`, `mesh_for` and `struct_for` tasks are analyzed (the entry
`result_[stmt]` is created, the per-task resolver is run, and its entries are
folded); every other kind leaves the result untouched. -/
def gathererVisit (orac : Option GlobalPtr → GlobalPtr → Bool) (sv : StmtId → StmtId → Bool)
    (env : SNodeEnv) (fuel : Nat) (result : OffloadedTask → Option AccessMap)
    (stmt : OffloadedTask) : Option (OffloadedTask → Option AccessMap) :=
  if stmt.task_type = TaskType.range_for ∨ stmt.task_type = TaskType.mesh_for ∨
      stmt.task_type = TaskType.struct_for then
    match gatherEntries orac stmt with
    | none => none
    | some entries =>
      match entries.foldlM (gatherFoldEntry env sv fuel) (fun _ => none : AccessMap) with
      | none => none
      | some bs => some (updResult result stmt (some bs))
  else some result

/-- `UniquelyAccessedBitStructGatherer::run`: visit the program's offloaded
tasks (top-level statements; the visitor never dives into an
`OffloadedStmt`). -/
def gathererRun (orac : Option GlobalPtr → GlobalPtr → Bool) (sv : StmtId → StmtId → Bool)
    (env : SNodeEnv) (fuel : Nat) (tasks : List OffloadedTask) :
    Option (OffloadedTask → Option AccessMap) :=
  tasks.foldlM (gathererVisit orac sv env fuel) (fun _ => none)

/-- The per-node merge rule of the resolver, extracted as a pure step
function on one node's entry: `u` decides loop-uniqueness of a fresh access,
`orac` is `definitely_same_address` (taking the possibly-null stored entry). -/
def mergeVerdict (orac : Option GlobalPtr → GlobalPtr → Bool) (u : GlobalPtr → Bool)
    (cur : Option (Option GlobalPtr)) (p : GlobalPtr) : Option (Option GlobalPtr) :=
  match cur with
  | none => some (if u p = true then some p else none)
  | some e => if orac e p = true then some e else some none

/-- Fold of `mergeVerdict` over one node's access subsequence, starting from
the absent entry. -/
def foldVerdict (orac : Option GlobalPtr → GlobalPtr → Bool) (u : GlobalPtr → Bool)
    (l : List GlobalPtr) : Option (Option GlobalPtr) :=
  l.foldl (mergeVerdict orac u) none

/-- Boolean form of the resolver's loop-uniqueness test of one access. -/
def isUniqueB (s : LUState) (n : Int) (p : GlobalPtr) : Bool :=
  decide (is_ptr_indices_loop_unique s n p.indices = some true)

/-- Two node entries agree in kind: both absent, both `nullptr`, or both
representatives that the address oracle relates (or that are equal). -/
def verdictEquiv (orac : Option GlobalPtr → GlobalPtr → Bool)
    (e1 e2 : Option (Option GlobalPtr)) : Prop :=
  match e1, e2 with
  | none, none => True
  | some none, some none => True
  | some (some x), some (some y) => x = y ∨ orac (some x) y = true
  | _, _ => False

/-- The current task boundary, viewed as the loop a `LoopIndexStmt` may be
owned by. -/
def currentLoop (o : OffloadedTask) : Loop :=
  ⟨o.tid, true⟩

/-- Oracle for concrete runs: relates every pair of accesses (trivially
symmetric and transitive). -/
def exOracle : Option GlobalPtr → GlobalPtr → Bool := fun _ _ => true

/-- Concrete access with an opaque-tagged index, addressing SNode `5`. -/
def exA : GlobalPtr := ⟨0, [0], [5]⟩

/-- Concrete access with an empty index tuple, addressing SNode `5`. -/
def exB : GlobalPtr := ⟨1, [], [5]⟩

/-- Concrete propagator state: statement `0` carries the opaque tag. -/
def exLU : LUState :=
  ⟨fun _ => false, fun i => if i = 0 then some (-1) else none⟩

/-- Empty propagator state. -/
def emptyLU : LUState := ⟨fun _ => false, fun _ => none⟩

/-- Concrete task whose body holds a loop index owned by a DIFFERENT
offloaded loop (identity `99`) than the task itself (identity `0`). -/
def c7Task : OffloadedTask :=
  ⟨0, TaskType.range_for, 0, [StmtNode.loopIndex 3 ⟨99, true⟩ 2]⟩

/-- Concrete storage tree: node `7` is bit-level with parent `3`; node `4` is
bit-level with parent `2`; all other nodes are non-bit-level with parent `0`. -/
def exEnv : SNodeEnv :=
  ⟨fun sn => if sn = 7 then ⟨true, 3⟩ else if sn = 4 then ⟨true, 2⟩ else ⟨false, 0⟩⟩

/-- Trivial `same_value` oracle for concrete runs. -/
def exSv : StmtId → StmtId → Bool := fun _ _ => true

/-- Aggregated map where the physical unit `3` already holds `nullptr`. -/
def exMNull : AccessMap := fun sn => if sn = 3 then some none else none

/-- Concrete representative access with a one-element index tuple. -/
def exP1 : GlobalPtr := ⟨2, [0], [7]⟩

/-- Concrete representative access with a two-element index tuple. -/
def exP2 : GlobalPtr := ⟨3, [1, 2], [7]⟩

/-- Aggregated map where the physical unit `3` holds representative `exP2`. -/
def exMP2 : AccessMap := fun sn => if sn = 3 then some (some exP2) else none

/-- Aggregated map where the physical unit `2` holds representative `exQ2`. -/
def exQ2 : GlobalPtr := ⟨4, [8], [4]⟩

/-- Concrete representative access with index tuple `[9]`, addressing the
bit-level node `4`. -/
def exQ1 : GlobalPtr := ⟨5, [9], [4]⟩

/-- Aggregated map where the physical unit `2` holds representative `exQ2`. -/
def exMQ2 : AccessMap := fun sn => if sn = 2 then some (some exQ2) else none

/-- Concrete serial task. -/
def exSerialTask : OffloadedTask := ⟨1, TaskType.serial, 0, []⟩

/-- Concrete access with an empty index tuple addressing SNode `9`. -/
def exP0 : GlobalPtr := ⟨6, [], [9]⟩

/-- Propagator state with loop indices `0 ↦ Dimension(0)` and
`1 ↦ Dimension(1)` (a two-dimensional iteration over `i`, `j`). -/
def ex2D : LUState :=
  ⟨fun _ => false, fun i => if i = 0 then some 0 else if i = 1 then some 1 else none⟩

/-- Oracle for concrete runs that relates no pair of accesses (trivially
symmetric and transitive). -/
def exOracleF : Option GlobalPtr → GlobalPtr → Bool := fun _ _ => false

@[simp]
theorem addInv_loop_unique (s : LUState) (i : StmtId) :
    (addInv s i).loop_unique = s.loop_unique := rfl

@[simp]
theorem setLU_loop_invariant (s : LUState) (i : StmtId) (v : Option Int) :
    (setLU s i v).loop_invariant = s.loop_invariant := rfl

@[simp]
theorem setLU_loop_unique_self (s : LUState) (i : StmtId) (v : Option Int) :
    (setLU s i v).loop_unique i = v := by
  simp [setLU]

theorem setLU_loop_unique_ne (s : LUState) (i : StmtId) (v : Option Int) (k : StmtId)
    (h : k ≠ i) : (setLU s i v).loop_unique k = s.loop_unique k := by
  simp [setLU, h]

theorem addInv_loop_invariant_ne (s : LUState) (i k : StmtId) (h : k ≠ i) :
    (addInv s i).loop_invariant k = s.loop_invariant k := by
  simp [addInv, h]

/-- Unfolding of the scan loop of `is_ptr_indices_loop_unique`: it returns
`true` exactly when some index carries the opaque tag, or the count of
distinct collected dimensions equals `n`. -/
theorem scanIndices_eq (s : LUState) (n : Int) (idx : List StmtId) :
    ∀ acc : List Int,
      scanIndices s n idx acc =
        ((idx.any fun i => s.loop_unique i == some (-1)) ||
         decide (((acc ++ dimTags s idx).dedup.length : Int) = n)) := by
  induction idx with
  | nil => intro acc; simp [scanIndices, dimTags]
  | cons i rest ih =>
    intro acc
    cases h : s.loop_unique i with
    | none =>
      simp [scanIndices, h, dimTags, List.filterMap_cons, ih acc]
    | some v =>
      by_cases hv : v = -1
      · subst hv
        simp [scanIndices, h]
      · have hbeq : (v == -1) = false := by simp [hv]
        simp [scanIndices, h, hv, dimTags, List.filterMap_cons, ih (acc ++ [v]),
          List.append_assoc, hbeq]

/-- Claim C3: with the dimension count initialized, `is_ptr_indices_loop_unique`
returns `true` exactly when some index statement carries the opaque tag, or
the number of distinct dimensions among the `Dimension(d)` tags of the index
statements equals the task's dimension count `n`. -/
theorem c3_loop_unique_query_characterization (s : LUState) (n : Int)
    (indices : List StmtId) (hn : n ≠ -1) :
    is_ptr_indices_loop_unique s n indices =
      some ((indices.any fun i => s.loop_unique i == some (-1)) ||
            decide (((dimTags s indices).dedup.length : Int) = n)) := by
  simp [is_ptr_indices_loop_unique, hn, scanIndices_eq s n indices []]

/-- Witness for C3: the two-dimensional iteration with index tuple `(i, j)`. -/
theorem c3_query_witness :
    is_ptr_indices_loop_unique ex2D 2 [0, 1] =
      some (([0, 1].any fun i => ex2D.loop_unique i == some (-1)) ||
            decide (((dimTags ex2D [0, 1]).dedup.length : Int) = 2)) :=
  c3_loop_unique_query_characterization ex2D 2 [0, 1] (by decide)

/-- Claim C7, counterexample: the source tests only the KIND of the owning
loop (`stmt->loop->is<OffloadedStmt>()`), not its identity against the task
being analyzed.  A loop-index statement owned by a different offloaded loop
(identity `99`, while the current task boundary has identity `0`) is tagged
`Dimension(2)` although its owning loop is not the current task boundary,
contradicting the claim's "exactly when ... the current task boundary". -/
theorem c7_kind_not_identity_counterexample :
    Loop.mk 99 true ≠ currentLoop c7Task ∧
    (luFold c7Task.body).loop_unique 3 = some 2 := by decide

/-- Claim C7, amended: the Propagator tags a loop-index statement as
`Dimension(d)` (its declared index position) exactly when its owning loop is
of task-boundary (offloaded) KIND; a loop-index owned by a non-offloaded loop
is left untagged.  (Under the IR invariant that task boundaries do not nest,
the only offloaded loop in scope is the current one.) -/
theorem c7_loop_index_tagging (s : LUState) (stmt : StmtId) (loop : Loop) (index : Int) :
    (visitLoopIndexStmt s stmt loop index).loop_unique stmt =
      if loop.isOffloaded = true then some index else s.loop_unique stmt := by
  cases h : loop.isOffloaded <;> simp [visitLoopIndexStmt, h]

/-- Claim C4: uniqueness propagates through exactly these operator patterns:
unary negation of a tagged operand inherits the tag unchanged; binary `add`,
`sub`, `bit_xor` of one tagged operand and one invariant operand, in either
operand order, inherits the unique operand's tag (when both orderings fire
the source's second branch wins); every other combination leaves the result's
tag entry unchanged (hence absent for a fresh statement). -/
theorem c4_uniqueness_propagation (s : LUState) (stmt operand lhs rhs : StmtId)
    (uop : UnaryOpType) (bop : BinaryOpType) (hl : lhs ≠ stmt) (hr : rhs ≠ stmt) :
    ((visitUnaryOpStmt s stmt uop operand).loop_unique stmt =
      if (s.loop_unique operand).isSome = true ∧ uop = UnaryOpType.neg then
        s.loop_unique operand
      else s.loop_unique stmt) ∧
    ((visitBinaryOpStmt s stmt bop lhs rhs).loop_unique stmt =
      if s.loop_invariant lhs = true ∧ (s.loop_unique rhs).isSome = true ∧
          (bop = BinaryOpType.add ∨ bop = BinaryOpType.sub ∨ bop = BinaryOpType.bit_xor) then
        s.loop_unique rhs
      else if (s.loop_unique lhs).isSome = true ∧ s.loop_invariant rhs = true ∧
          (bop = BinaryOpType.add ∨ bop = BinaryOpType.sub ∨ bop = BinaryOpType.bit_xor) then
        s.loop_unique lhs
      else s.loop_unique stmt) := by
  constructor
  · by_cases a1 : s.loop_invariant operand = true <;>
      by_cases a2 : (s.loop_unique operand).isSome = true <;>
        by_cases a3 : uop = UnaryOpType.neg <;>
          simp [visitUnaryOpStmt, addInv, setLU, a1, a2, a3]
  · by_cases a1 : s.loop_invariant lhs = true <;>
      by_cases a2 : s.loop_invariant rhs = true <;>
        by_cases a3 : (s.loop_unique lhs).isSome = true <;>
          by_cases a4 : (s.loop_unique rhs).isSome = true <;>
            by_cases a5 : bop = BinaryOpType.add ∨ bop = BinaryOpType.sub ∨
                bop = BinaryOpType.bit_xor <;>
              simp [visitBinaryOpStmt, addInv, setLU, a1, a2, a3, a4, a5, hl, hr]

/-- Witness for C4: negation of the loop index `i` and `i + j` in the
two-dimensional propagator state, at the fresh statement `5`. -/
theorem c4_propagation_witness :
    ((visitUnaryOpStmt ex2D 5 UnaryOpType.neg 0).loop_unique 5 =
      if (ex2D.loop_unique 0).isSome = true ∧ UnaryOpType.neg = UnaryOpType.neg then
        ex2D.loop_unique 0
      else ex2D.loop_unique 5) ∧
    ((visitBinaryOpStmt ex2D 5 BinaryOpType.add 0 1).loop_unique 5 =
      if ex2D.loop_invariant 0 = true ∧ (ex2D.loop_unique 1).isSome = true ∧
          (BinaryOpType.add = BinaryOpType.add ∨ BinaryOpType.add = BinaryOpType.sub ∨
           BinaryOpType.add = BinaryOpType.bit_xor) then
        ex2D.loop_unique 1
      else if (ex2D.loop_unique 0).isSome = true ∧ ex2D.loop_invariant 1 = true ∧
          (BinaryOpType.add = BinaryOpType.add ∨ BinaryOpType.add = BinaryOpType.sub ∨
           BinaryOpType.add = BinaryOpType.bit_xor) then
        ex2D.loop_unique 0
      else ex2D.loop_unique 5) :=
  c4_uniqueness_propagation ex2D 5 0 0 1 UnaryOpType.neg BinaryOpType.add
    (by decide) (by decide)

/-- Claim C5: the resolver's per-node update rule — an absent entry records
`Some(access)` when the access is loop-unique and `None` otherwise; an
existing `Some(previous)` is kept when the exact-address-equality oracle
relates `(previous, access)` and is downgraded to `None` otherwise; an
existing `None` stays `None` (terminal). -/
theorem c5_resolver_update_rule (orac : Option GlobalPtr → GlobalPtr → Bool) (s : LUState)
    (n : Int) (m : AccessMap) (p : GlobalPtr) (sn : SNodeId) (hn : n ≠ -1) :
    (m sn = none → visitGlobalPtrSN orac s n m p sn =
      some (updMap m sn (some (if is_ptr_indices_loop_unique s n p.indices = some true then
                                some p else none)))) ∧
    (∀ q, m sn = some (some q) → visitGlobalPtrSN orac s n m p sn =
      some (if orac (some q) p = true then m else updMap m sn (some none))) ∧
    (m sn = some none →
      (visitGlobalPtrSN orac s n m p sn).map (fun m2 => m2 sn) = some (some none)) := by
  refine ⟨?_, ?_, ?_⟩
  · intro hm
    simp only [visitGlobalPtrSN, hm]
    cases hip : is_ptr_indices_loop_unique s n p.indices with
    | none => exact absurd hip (by simp [is_ptr_indices_loop_unique, hn])
    | some b => cases b <;> simp [hip]
  · intro q hq
    simp only [visitGlobalPtrSN, hq]
    cases ho : orac (some q) p <;> simp [ho]
  · intro hq
    simp only [visitGlobalPtrSN, hq]
    cases ho : orac none p <;> simp [ho, updMap, hq]

/-- Witness for C5: first access to SNode `5` with an opaque-tagged index. -/
theorem c5_update_rule_witness :
    visitGlobalPtrSN exOracle exLU 1 (fun _ => none) exA 5 =
      some (updMap (fun _ => none) 5
        (some (if is_ptr_indices_loop_unique exLU 1 exA.indices = some true then
                some exA else none))) :=
  (c5_resolver_update_rule exOracle exLU 1 (fun _ => none) exA 5 (by decide)).1 rfl

/-- Claim C6: when the existing aggregated entry and the newly folded verdict
are both `Some`, with index tuples of equal arity, the aggregator compares
the tuples element-wise with the `same_value` oracle: all positions matching
keeps the existing representative, any mismatch downgrades to `None`. -/
theorem c6_aggregator_some_some_merge (env : SNodeEnv) (sv : StmtId → StmtId → Bool)
    (fuel : Nat) (m : AccessMap) (sn0 u : SNodeId) (p1 p2 : GlobalPtr)
    (hb : (env.info sn0).is_bit_level = true)
    (hasc : nearestNonBit env fuel sn0 = some u)
    (hm : m u = some (some p2))
    (hlen : p1.indices.length = p2.indices.length) :
    gatherFoldEntry env sv fuel m (sn0, some p1) =
      some (updMap m u
        (some (if (p1.indices.zip p2.indices).all (fun ab => sv ab.1 ab.2) = true then
                some p2 else none))) := by
  simp only [gatherFoldEntry, hb, hasc, hm, hlen, if_true]

/-- Witness for C6: bit-level node `4` folds into physical unit `2`, which
already holds the representative `exQ2`. -/
theorem c6_merge_witness :
    gatherFoldEntry exEnv exSv 2 exMQ2 (4, some exQ1) =
      some (updMap exMQ2 2
        (some (if (exQ1.indices.zip exQ2.indices).all (fun ab => exSv ab.1 ab.2) = true then
                some exQ2 else none))) :=
  c6_aggregator_some_some_merge exEnv exSv 2 exMQ2 4 2 exQ1 exQ2 rfl rfl rfl rfl

/-- Claim C1 (code bug): the spec's short-circuit "existing entry already
`None` ⇒ result `None`, no comparison" is NOT what the source does.  The
source only tests `ptr1 == nullptr`; with an existing `nullptr` entry for
physical unit `3` and a newly folded `Some` verdict for bit-level sub-field
`7`, it reaches `TI_ASSERT(ptr1->indices.size() == ptr2->indices.size())`
and reads `ptr2->indices` with `ptr2 == nullptr` — a null-pointer
dereference (modelled as the aborting result `none`), not a `None` verdict. -/
theorem c1_merge_null_existing_crash :
    gatherFoldEntry exEnv exSv 2 exMNull (7, some exP1) = none := rfl

/-- Claim C9: the three preconditions are enforced as fatal aborts — the
loop-uniqueness query aborts when the dimension count is still `-1`, the
resolver's entry point aborts when its root is not an offloaded node, and the
aggregator's merge aborts when the two representatives' index tuples have
unequal arities. -/
theorem c9_assertions_fatal (s : LUState) (idx : List StmtId)
    (orac : Option GlobalPtr → GlobalPtr → Bool) (k : Nat)
    (env : SNodeEnv) (sv : StmtId → StmtId → Bool) (fuel : Nat) (m : AccessMap)
    (sn0 u : SNodeId) (p1 p2 : GlobalPtr) :
    is_ptr_indices_loop_unique s (-1) idx = none ∧
    searcherRun orac (IRNode.otherNode k) = none ∧
    ((env.info sn0).is_bit_level = true → nearestNonBit env fuel sn0 = some u →
      m u = some (some p2) → p1.indices.length ≠ p2.indices.length →
      gatherFoldEntry env sv fuel m (sn0, some p1) = none) := by
  refine ⟨by simp [is_ptr_indices_loop_unique], rfl, ?_⟩
  intro hb hasc hm hlen
  simp only [gatherFoldEntry, hb, hasc, hm, if_true]
  simp [hlen]

/-- Witness for C9: arity mismatch between `exP1` (one index) and `exP2`
(two indices) aborts the merge. -/
theorem c9_assertions_witness :
    gatherFoldEntry exEnv exSv 2 exMP2 (7, some exP1) = none :=
  (c9_assertions_fatal emptyLU [] exOracle 0 exEnv exSv 2 exMP2 7 3 exP1 exP2).2.2
    rfl rfl rfl (by decide)

/-- Claim C10: invoked directly on a serial task, the searcher sets the
dimension count to `0`; an access whose index tuple carries no opaque and no
dimension tag is then classified loop-unique (zero distinct dimensions equals
the count `0`) and, as the first access to a node, recorded as its `Some`
representative. -/
theorem c10_serial_direct_run (orac : Option GlobalPtr → GlobalPtr → Bool)
    (o : OffloadedTask) (s : LUState) (m : AccessMap) (p : GlobalPtr) (sn : SNodeId)
    (hserial : o.task_type = TaskType.serial)
    (htags : ∀ i ∈ p.indices, s.loop_unique i = none)
    (hm : m sn = none) :
    searcherNumIndices o = 0 ∧
    is_ptr_indices_loop_unique s (searcherNumIndices o) p.indices = some true ∧
    visitGlobalPtrSN orac s (searcherNumIndices o) m p sn =
      some (updMap m sn (some (some p))) := by
  have hnum : searcherNumIndices o = 0 := by
    simp [searcherNumIndices, hserial]
  have hany : (p.indices.any fun i => s.loop_unique i == some (-1)) = false := by
    simp only [List.any_eq_false]
    intro i hi
    simp [htags i hi]
  have htagsnil : dimTags s p.indices = [] := by
    simp only [dimTags, List.filterMap_eq_nil_iff]
    intro i hi
    simp [htags i hi]
  have hip : is_ptr_indices_loop_unique s (searcherNumIndices o) p.indices = some true := by
    rw [hnum]
    simp [is_ptr_indices_loop_unique, scanIndices_eq s 0 p.indices [], hany, htagsnil]
  refine ⟨hnum, hip, ?_⟩
  simp only [visitGlobalPtrSN, hm, hip]
  simp

/-- Witness for C10: a serial task and an access with an empty index tuple,
recorded as the representative of SNode `9`. -/
theorem c10_serial_witness :
    searcherNumIndices exSerialTask = 0 ∧
    is_ptr_indices_loop_unique emptyLU (searcherNumIndices exSerialTask) exP0.indices =
      some true ∧
    visitGlobalPtrSN exOracle emptyLU (searcherNumIndices exSerialTask)
        (fun _ => none) exP0 9 =
      some (updMap (fun _ => none) 9 (some (some exP0))) :=
  c10_serial_direct_run exOracle exSerialTask emptyLU (fun _ => none) exP0 9 rfl
    (by intro i hi; simp [exP0] at hi) rfl

/-- Helper: folding the gatherer over any task list never creates an entry
keyed by a serial task — only parallel tasks write to the result, always
under their own key. -/
theorem gathererFold_serial_none (orac : Option GlobalPtr → GlobalPtr → Bool)
    (sv : StmtId → StmtId → Bool) (env : SNodeEnv) (fuel : Nat) (t : OffloadedTask)
    (hserial : t.task_type = TaskType.serial) :
    ∀ (tasks : List OffloadedTask) (r R : OffloadedTask → Option AccessMap),
      r t = none → tasks.foldlM (gathererVisit orac sv env fuel) r = some R →
      R t = none := by
  intro tasks
  induction tasks with
  | nil =>
    intro r R hr hfold
    simp only [List.foldlM_nil] at hfold
    cases hfold
    exact hr
  | cons st rest ih =>
    intro r R hr hfold
    rw [List.foldlM_cons] at hfold
    cases hv : gathererVisit orac sv env fuel r st with
    | none => rw [hv] at hfold; simp at hfold
    | some r1 =>
      rw [hv] at hfold
      replace hfold : rest.foldlM (gathererVisit orac sv env fuel) r1 = some R := hfold
      refine ih r1 R ?_ hfold
      by_cases hpar : st.task_type = TaskType.range_for ∨ st.task_type = TaskType.mesh_for ∨
        st.task_type = TaskType.struct_for
      · have hne : t ≠ st := by
          intro he
          rw [← he, hserial] at hpar
          rcases hpar with h | h | h <;> exact absurd h (by decide)
        simp only [gathererVisit, if_pos hpar] at hv
        cases hge : gatherEntries orac st with
        | none => simp only [hge] at hv; exact Option.noConfusion hv
        | some entries =>
          simp only [hge] at hv
          cases hfe : entries.foldlM (gatherFoldEntry env sv fuel)
              (fun _ => none : AccessMap) with
          | none => simp only [hfe] at hv; exact Option.noConfusion hv
          | some bs =>
            simp only [hfe] at hv
            have hr1 : r1 = updResult r st (some bs) := by
              cases hv; rfl
            rw [hr1]
            simp [updResult, hne, hr]
      · simp only [gathererVisit, if_neg hpar] at hv
        cases hv
        exact hr

/-- Claim C8: the Sub-Field Aggregator does not analyze serial task
boundaries — visiting a serial task leaves the result untouched — and a
completed run's result holds no entry keyed by a serial task; only
`range_for`, `mesh_for` and `struct_for` tasks are analyzed. -/
theorem c8_serial_tasks_skipped (orac : Option GlobalPtr → GlobalPtr → Bool)
    (sv : StmtId → StmtId → Bool) (env : SNodeEnv) (fuel : Nat)
    (tasks : List OffloadedTask) (t : OffloadedTask)
    (r R : OffloadedTask → Option AccessMap)
    (hserial : t.task_type = TaskType.serial)
    (hrun : gathererRun orac sv env fuel tasks = some R) :
    gathererVisit orac sv env fuel r t = some r ∧ R t = none := by
  constructor
  · have hnpar : ¬(t.task_type = TaskType.range_for ∨ t.task_type = TaskType.mesh_for ∨
        t.task_type = TaskType.struct_for) := by
      rw [hserial]
      rintro (h | h | h) <;> exact absurd h (by decide)
    simp [gathererVisit, hnpar]
  · have hrun' : tasks.foldlM (gathererVisit orac sv env fuel) (fun _ => none) = some R := hrun
    exact gathererFold_serial_none orac sv env fuel t hserial tasks (fun _ => none) R rfl hrun'

/-- Witness for C8: a program consisting of one serial task. -/
theorem c8_serial_witness :
    gathererVisit exOracle exSv exEnv 2 (fun _ => none) exSerialTask =
      some (fun _ => none) ∧
    (fun _ => (none : Option AccessMap)) exSerialTask = none :=
  c8_serial_tasks_skipped exOracle exSv exEnv 2 [exSerialTask] exSerialTask
    (fun _ => none) (fun _ => none) rfl rfl

/-- Helper: once a node's entry is `nullptr`, every further merge keeps it
(`None` is absorbing). -/
theorem foldMerge_from_null (orac : Option GlobalPtr → GlobalPtr → Bool)
    (u : GlobalPtr → Bool) :
    ∀ t : List GlobalPtr, t.foldl (mergeVerdict orac u) (some none) = some none := by
  intro t
  induction t with
  | nil => rfl
  | cons a t' ih =>
    have hstep : mergeVerdict orac u (some none) a = some none := by
      simp only [mergeVerdict]
      cases h : orac none a <;> simp [h]
    rw [List.foldl_cons, hstep, ih]

/-- Helper: from a representative `x`, the fold keeps `x` while the oracle
relates every later access to it, and collapses to `nullptr` at the first
failure. -/
theorem foldMerge_from_rep (orac : Option GlobalPtr → GlobalPtr → Bool)
    (u : GlobalPtr → Bool) :
    ∀ (t : List GlobalPtr) (x : GlobalPtr),
      t.foldl (mergeVerdict orac u) (some (some x)) =
        if t.all (fun a => orac (some x) a) = true then some (some x) else some none := by
  intro t
  induction t with
  | nil => intro x; simp
  | cons a t' ih =>
    intro x
    cases h : orac (some x) a with
    | true =>
      have hstep : mergeVerdict orac u (some (some x)) a = some (some x) := by
        simp [mergeVerdict, h]
      rw [List.foldl_cons, hstep, ih x]
      simp [List.all_cons, h]
    | false =>
      have hstep : mergeVerdict orac u (some (some x)) a = some none := by
        simp [mergeVerdict, h]
      rw [List.foldl_cons, hstep, foldMerge_from_null orac u t']
      simp [List.all_cons, h]

/-- Characterization of one node's fold over a nonempty access subsequence:
the representative, when one survives, is always the first access. -/
theorem foldVerdict_cons (orac : Option GlobalPtr → GlobalPtr → Bool) (u : GlobalPtr → Bool)
    (h : GlobalPtr) (t : List GlobalPtr) :
    foldVerdict orac u (h :: t) =
      if u h = true then
        (if t.all (fun a => orac (some h) a) = true then some (some h) else some none)
      else some none := by
  unfold foldVerdict
  cases hu : u h with
  | true =>
    have hstep : mergeVerdict orac u none h = some (some h) := by simp [mergeVerdict, hu]
    rw [List.foldl_cons, hstep, foldMerge_from_rep orac u t h]
    simp [hu]
  | false =>
    have hstep : mergeVerdict orac u none h = some none := by simp [mergeVerdict, hu]
    rw [List.foldl_cons, hstep, foldMerge_from_null orac u t]
    simp [hu]

/-- Helper: sufficient conditions for a surviving representative. -/
theorem foldVerdict_pos (orac : Option GlobalPtr → GlobalPtr → Bool) (u : GlobalPtr → Bool)
    (h : GlobalPtr) (t : List GlobalPtr) (hu : u h = true)
    (hall : ∀ a ∈ t, orac (some h) a = true) :
    foldVerdict orac u (h :: t) = some (some h) := by
  rw [foldVerdict_cons]
  have ht : t.all (fun a => orac (some h) a) = true := List.all_eq_true.mpr hall
  simp [hu, ht]

/-- Helper: inversion — a surviving representative forces loop-uniqueness of
the head and oracle-relatedness of every later access. -/
theorem foldVerdict_inv (orac : Option GlobalPtr → GlobalPtr → Bool) (u : GlobalPtr → Bool)
    (h : GlobalPtr) (t : List GlobalPtr)
    (hres : foldVerdict orac u (h :: t) = some (some h)) :
    u h = true ∧ ∀ a ∈ t, orac (some h) a = true := by
  rw [foldVerdict_cons] at hres
  by_cases hu : u h = true
  · rw [if_pos hu] at hres
    by_cases hall : t.all (fun a => orac (some h) a) = true
    · exact ⟨hu, List.all_eq_true.mp hall⟩
    · rw [if_neg hall] at hres
      exact absurd hres (by simp)
  · rw [if_neg hu] at hres
    exact absurd hres (by simp)

/-- Helper: a nonempty fold ends `Some(head)` or `None`, never anything else. -/
theorem foldVerdict_cases (orac : Option GlobalPtr → GlobalPtr → Bool) (u : GlobalPtr → Bool)
    (h : GlobalPtr) (t : List GlobalPtr) :
    foldVerdict orac u (h :: t) = some (some h) ∨ foldVerdict orac u (h :: t) = some none := by
  rw [foldVerdict_cons]
  by_cases hu : u h = true
  · by_cases hall : t.all (fun a => orac (some h) a) = true
    · left; simp [hu, hall]
    · right; simp [hu, hall]
  · right; simp [hu]

/-- Helper: transfer of the surviving-representative conditions along a
permutation, given symmetry, transitivity, and compatibility of the oracle
with the loop-uniqueness classification. -/
theorem foldMerge_transfer (orac : Option GlobalPtr → GlobalPtr → Bool) (u : GlobalPtr → Bool)
    (h h' : GlobalPtr) (t t' : List GlobalPtr)
    (hsym : ∀ x y, orac (some x) y = orac (some y) x)
    (htr : ∀ x y z, orac (some x) y = true → orac (some y) z = true →
      orac (some x) z = true)
    (hcmp : ∀ x y, orac (some x) y = true → u x = u y)
    (hperm : (h :: t).Perm (h' :: t'))
    (hu : u h = true) (hall : ∀ a ∈ t, orac (some h) a = true) :
    u h' = true ∧ (∀ a ∈ t', orac (some h') a = true) ∧
      (h' = h ∨ orac (some h) h' = true) := by
  by_cases hh : h' = h
  · subst hh
    have ht : t.Perm t' := hperm.cons_inv
    exact ⟨hu, fun a ha => hall a (ht.mem_iff.mpr ha), Or.inl rfl⟩
  · have hmem : h' ∈ h :: t := hperm.symm.subset (List.mem_cons_self h' t')
    have hht : h' ∈ t := by
      rcases List.mem_cons.mp hmem with he | hin
      · exact absurd he hh
      · exact hin
    have ohh' : orac (some h) h' = true := hall h' hht
    have hu' : u h' = true := by rw [← hcmp h h' ohh']; exact hu
    have oh'h : orac (some h') h = true := by rw [hsym h' h]; exact ohh'
    refine ⟨hu', ?_, Or.inr ohh'⟩
    intro a ha
    have hmema : a ∈ h :: t := hperm.symm.subset (List.mem_cons_of_mem h' ha)
    rcases List.mem_cons.mp hmema with he | hta
    · rw [he]; exact oh'h
    · exact htr h' h a oh'h (hall a hta)

/-- Helper: permutation invariance of one node's fold, up to `verdictEquiv`,
under a symmetric, transitive, classification-compatible oracle. -/
theorem foldVerdict_perm (orac : Option GlobalPtr → GlobalPtr → Bool) (u : GlobalPtr → Bool)
    (l l' : List GlobalPtr)
    (hsym : ∀ x y, orac (some x) y = orac (some y) x)
    (htr : ∀ x y z, orac (some x) y = true → orac (some y) z = true →
      orac (some x) z = true)
    (hcmp : ∀ x y, orac (some x) y = true → u x = u y)
    (hperm : l.Perm l') :
    verdictEquiv orac (foldVerdict orac u l) (foldVerdict orac u l') := by
  cases l with
  | nil =>
    have h0 : l' = [] := hperm.symm.eq_nil
    subst h0
    exact trivial
  | cons h t =>
    cases l' with
    | nil => exact List.noConfusion hperm.eq_nil
    | cons h' t' =>
      rcases foldVerdict_cases orac u h t with hr | hr <;>
        rcases foldVerdict_cases orac u h' t' with hr' | hr'
      · obtain ⟨hu, hall⟩ := foldVerdict_inv orac u h t hr
        obtain ⟨_, _, hrel⟩ :=
          foldMerge_transfer orac u h h' t t' hsym htr hcmp hperm hu hall
        rw [hr, hr']
        show h = h' ∨ orac (some h) h' = true
        rcases hrel with he | ho
        · exact Or.inl he.symm
        · exact Or.inr ho
      · obtain ⟨hu, hall⟩ := foldVerdict_inv orac u h t hr
        obtain ⟨hu', hall', _⟩ :=
          foldMerge_transfer orac u h h' t t' hsym htr hcmp hperm hu hall
        have hpos := foldVerdict_pos orac u h' t' hu' hall'
        rw [hr'] at hpos
        exact absurd hpos (by simp)
      · obtain ⟨hu', hall'⟩ := foldVerdict_inv orac u h' t' hr'
        obtain ⟨hu, hall, _⟩ :=
          foldMerge_transfer orac u h' h t' t hsym htr hcmp hperm.symm hu' hall'
        have hpos := foldVerdict_pos orac u h t hu hall
        rw [hr] at hpos
        exact absurd hpos (by simp)
      · rw [hr, hr']
        exact trivial

/-- Helper: with the dimension count initialized, one per-node step of the
resolver is exactly `mergeVerdict` applied to that node's entry. -/
theorem visitSN_merge (orac : Option GlobalPtr → GlobalPtr → Bool) (s : LUState) (n : Int)
    (m : AccessMap) (p : GlobalPtr) (sn : SNodeId) (hn : n ≠ -1) :
    visitGlobalPtrSN orac s n m p sn =
      some (updMap m sn (mergeVerdict orac (isUniqueB s n) (m sn) p)) := by
  cases hm : m sn with
  | none =>
    simp only [visitGlobalPtrSN, hm]
    cases hip : is_ptr_indices_loop_unique s n p.indices with
    | none => exact absurd hip (by simp [is_ptr_indices_loop_unique, hn])
    | some b =>
      have hub : isUniqueB s n p = b := by
        cases b <;> simp [isUniqueB, hip]
      simp only [mergeVerdict, hub]
  | some e =>
    simp only [visitGlobalPtrSN, hm, mergeVerdict]
    cases ho : orac e p with
    | true =>
      have hupd : updMap m sn (some e) = m := by
        funext k
        simp only [updMap]
        by_cases hk : k = sn
        · subst hk; simp [hm]
        · simp [hk]
      simp [ho, hupd]
    | false => simp [ho]

/-- Helper: one access's pass over its candidate-node list (with no duplicate
candidates) merges each listed node's entry and leaves the rest unchanged. -/
theorem visitPtr_merge (orac : Option GlobalPtr → GlobalPtr → Bool) (s : LUState) (n : Int)
    (p : GlobalPtr) (hn : n ≠ -1) :
    ∀ (sns : List SNodeId) (m : AccessMap), sns.Nodup →
      sns.foldlM (fun m' sn => visitGlobalPtrSN orac s n m' p sn) m =
        some (fun sn => if sn ∈ sns then mergeVerdict orac (isUniqueB s n) (m sn) p
                        else m sn) := by
  intro sns
  induction sns with
  | nil =>
    intro m _
    simp only [List.foldlM_nil, List.not_mem_nil, if_false]
    rfl
  | cons s0 rest ih =>
    intro m hnd
    have hnotin : s0 ∉ rest := (List.nodup_cons.mp hnd).1
    have hndr : rest.Nodup := (List.nodup_cons.mp hnd).2
    rw [List.foldlM_cons, visitSN_merge orac s n m p s0 hn]
    have hrest := ih (updMap m s0 (mergeVerdict orac (isUniqueB s n) (m s0) p)) hndr
    refine Eq.trans hrest ?_
    congr 1
    funext sn
    by_cases hs0 : sn = s0
    · subst hs0
      simp [hnotin, updMap, List.mem_cons]
    · by_cases hin : sn ∈ rest
      · simp [hin, updMap, hs0, List.mem_cons]
      · simp [hin, updMap, hs0, List.mem_cons]

/-- Helper: the resolver's run decomposes pointwise — each node's final entry
is the fold of `mergeVerdict` over the subsequence of accesses listing that
node. -/
theorem resolver_decomp (orac : Option GlobalPtr → GlobalPtr → Bool) (s : LUState) (n : Int)
    (hn : n ≠ -1) :
    ∀ (l : List GlobalPtr) (m : AccessMap), (∀ p ∈ l, p.snodes.Nodup) →
      l.foldlM (visitGlobalPtr orac s n) m =
        some (fun sn => (l.filter fun p => decide (sn ∈ p.snodes)).foldl
          (mergeVerdict orac (isUniqueB s n)) (m sn)) := by
  intro l
  induction l with
  | nil =>
    intro m _
    simp only [List.foldlM_nil, List.filter_nil, List.foldl_nil]
    rfl
  | cons p rest ih =>
    intro m hnd
    rw [List.foldlM_cons]
    have hv : visitGlobalPtr orac s n m p =
        some (fun sn => if sn ∈ p.snodes then mergeVerdict orac (isUniqueB s n) (m sn) p
                        else m sn) :=
      visitPtr_merge orac s n p hn p.snodes m (hnd p (List.mem_cons_self p rest))
    rw [hv]
    have hrest := ih
      (fun sn => if sn ∈ p.snodes then mergeVerdict orac (isUniqueB s n) (m sn) p else m sn)
      (fun q hq => hnd q (List.mem_cons_of_mem p hq))
    refine Eq.trans hrest ?_
    congr 1
    funext sn
    rw [List.filter_cons]
    by_cases hin : sn ∈ p.snodes
    · simp [hin]
    · simp [hin]

/-- Claim C2, counterexample: the final map is NOT identical for every
visiting order assuming only symmetry of the oracle.  With the (symmetric)
always-true oracle, access `exA` is classified loop-unique and `exB` is not;
visiting `exA` first leaves node `5` with representative `exA`, while
visiting `exB` first records `None`, which is absorbing.  The two orders
produce different final maps. -/
theorem c2_order_dependence_counterexample :
    exOracle (some exA) exB = exOracle (some exB) exA ∧
    List.Perm [exA, exB] [exB, exA] ∧
    (resolverRun exOracle exLU 1 [exA, exB]).map (fun M => M 5) ≠
      (resolverRun exOracle exLU 1 [exB, exA]).map (fun M => M 5) := by
  refine ⟨rfl, List.Perm.swap exB exA [], ?_⟩
  decide

/-- Claim C2, amended: under symmetry alone the resolver's result is
order-dependent; when the exact-address-equality oracle is moreover
transitive and equates the loop-uniqueness classification of the accesses it
relates, any two visiting orders of the access sequence produce per-node
verdicts that agree in kind — both absent, both `None`, or both `Some` of
oracle-equal (or identical) representatives. -/
theorem c2_perm_verdict_equiv (orac : Option GlobalPtr → GlobalPtr → Bool) (s : LUState)
    (n : Int) (l l' : List GlobalPtr) (sn : SNodeId) (M M' : AccessMap)
    (hn : n ≠ -1)
    (hnd : ∀ p ∈ l, p.snodes.Nodup)
    (hsym : ∀ x y, orac (some x) y = orac (some y) x)
    (htr : ∀ x y z, orac (some x) y = true → orac (some y) z = true →
      orac (some x) z = true)
    (hcmp : ∀ x y, orac (some x) y = true → isUniqueB s n x = isUniqueB s n y)
    (hperm : l.Perm l')
    (hM : resolverRun orac s n l = some M)
    (hM' : resolverRun orac s n l' = some M') :
    verdictEquiv orac (M sn) (M' sn) := by
  have hnd' : ∀ p ∈ l', p.snodes.Nodup := fun p hp => hnd p (hperm.symm.subset hp)
  have h1 := resolver_decomp orac s n hn l (fun _ => none) hnd
  have h2 := resolver_decomp orac s n hn l' (fun _ => none) hnd'
  have e1 : M = fun sn => (l.filter fun p => decide (sn ∈ p.snodes)).foldl
      (mergeVerdict orac (isUniqueB s n)) none :=
    Option.some.inj (hM.symm.trans h1)
  have e2 : M' = fun sn => (l'.filter fun p => decide (sn ∈ p.snodes)).foldl
      (mergeVerdict orac (isUniqueB s n)) none :=
    Option.some.inj (hM'.symm.trans h2)
  rw [e1, e2]
  exact foldVerdict_perm orac (isUniqueB s n) _ _ hsym htr hcmp
    (hperm.filter (fun p => decide (sn ∈ p.snodes)))

/-- Witness for the amended C2: the never-related oracle (symmetric,
transitive, vacuously classification-compatible) over two accesses to node
`5`, in both orders. -/
theorem c2_perm_verdict_equiv_witness :
    verdictEquiv exOracleF
      (((resolverRun exOracleF emptyLU 0 [exA, exB]).getD (fun _ => none)) 5)
      (((resolverRun exOracleF emptyLU 0 [exB, exA]).getD (fun _ => none)) 5) :=
  c2_perm_verdict_equiv exOracleF emptyLU 0 [exA, exB] [exB, exA] 5
    ((resolverRun exOracleF emptyLU 0 [exA, exB]).getD (fun _ => none))
    ((resolverRun exOracleF emptyLU 0 [exB, exA]).getD (fun _ => none))
    (by decide) (by decide)
    (fun x y => rfl)
    (by intro x y z h hh; exact absurd h (by simp [exOracleF]))
    (by intro x y h; exact absurd h (by simp [exOracleF]))
    (List.Perm.swap exB exA []) rfl rfl
